import Mathlib

/-
Shallow embedding of src/playMusic.py (class AudioPlayer).

Conventions used throughout:
- Python floats are modelled as exact rationals (ℚ); Python ints as ℤ.
- The external mutagen tag reader, the pygame mixer, the clock and standard
  input are modelled as oracles: each call of the embedded function takes the
  values the external world would have produced (a MutagenResult per file, a
  list of clock/busy samples per progress loop, a list of per-iteration
  observations for the inter-track wait loop).
- Console printing is not modelled except where a claim is about it (the
  progress-bar output stream is modelled as a list of PBOut events).
- The mutable fields self.metadata and self.audio_files of AudioPlayer are
  threaded explicitly as arguments and results.
-/

namespace PlayMusic

/-- Python round() to an integer: round-half-to-even (banker's rounding),
as used by round(x, n) on the scaled value. -/
def pyRoundInt (q : ℚ) : ℤ :=
  if q - (⌊q⌋ : ℚ) < 1/2 then ⌊q⌋
  else if (1:ℚ)/2 < q - (⌊q⌋ : ℚ) then ⌊q⌋ + 1
  else if ⌊q⌋ % 2 = 0 then ⌊q⌋ else ⌊q⌋ + 1

/-- Python round(x, 2) as in round(audio.info.length, 2) at line 34. -/
def pyRound2 (q : ℚ) : ℚ := (pyRoundInt (q * 100) : ℚ) / 100

/-- Python round(x, 3) as in round(elapsed_time, 3) at line 137. -/
def pyRound3 (q : ℚ) : ℚ := (pyRoundInt (q * 1000) : ℚ) / 1000

/-- Python int() applied to a float: truncation toward zero. -/
def pyTrunc (q : ℚ) : ℤ := if 0 ≤ q then ⌊q⌋ else -⌊-q⌋

/-- ASCII whitespace recognized by Python str.strip(). -/
def pyIsSpace (c : Char) : Bool :=
  c = ' ' || c = '\t' || c = '\n' || c = '\r' || c = '\x0b' || c = '\x0c'

/-- Python str.strip(): remove leading and trailing whitespace. -/
def pyStrip (s : String) : String :=
  String.mk (((s.toList.dropWhile pyIsSpace).reverse.dropWhile pyIsSpace).reverse)

/-- Posix os.path.basename: the part of the path after the last slash. -/
def pyBasename (s : String) : String :=
  String.mk ((s.toList.reverse.takeWhile (fun c => c ≠ '/')).reverse)

/-- Index of the last dot of a file name, if any. -/
def idxOfLastDot : List Char → Option ℕ
  | [] => none
  | c :: rest =>
    match idxOfLastDot rest with
    | some i => some (i + 1)
    | none => if c = '.' then some 0 else none

/-- Extension part of os.path.splitext for a plain file name (no separator):
the suffix from the last dot, provided that dot is not part of a run of
leading dots; empty otherwise. Mirrors genericpath._splitext. -/
def pySplitextExt (cs : List Char) : List Char :=
  match idxOfLastDot cs with
  | none => []
  | some i => if 0 < i ∧ (cs.take i).any (fun c => c ≠ '.') then cs.drop i else []

/-- Lines 160: ext = path.splitext(file_name)[1][1:].lower(). Char.toLower
covers the ASCII case of Python str.lower(). -/
def extOf (name : String) : String :=
  String.mk (((pySplitextExt name.toList).drop 1).map Char.toLower)

/-- Python list indexing validity: audio_list[i] succeeds iff -len ≤ i < len. -/
def pyIdxValid (n : ℕ) (i : ℤ) : Bool := (-(n:ℤ) ≤ i) && (i < (n:ℤ))

/-- Channel count: audio.info.channels if present, the string "Unknown"
otherwise (line 37). -/
inductive Channels
  | num (n : ℤ)
  | unknown
deriving DecidableEq

/-- The shared dict self.metadata. A key that was never assigned is none;
heterogeneous value types are split into typed fields. -/
structure MetaDict where
  length : Option ℚ
  bitrate : Option ℤ
  sample_rate : Option ℤ
  channels : Option Channels
  title : Option String
  artist : Option String
  album : Option String
  genre : Option String
deriving DecidableEq

/-- The dict self.metadata of a freshly constructed AudioPlayer (line 20). -/
def emptyMeta : MetaDict := ⟨none, none, none, none, none, none, none, none⟩

/-- The fields of audio.info read on lines 34-37; length in seconds, bitrate
in bits per second, channels absent when hasattr is false. -/
structure AudioInfo where
  length : ℚ
  bitrate : ℤ
  sample_rate : ℤ
  channels : Option ℤ
deriving DecidableEq

/-- Outcome of the tag-reading block (lines 40-62): dictTags when audio.tags
is not None and isinstance(..., dict), carrying the optional TIT2/TPE1/TALB/
TCON values; noTags for the else branch; id3error when reading the tags
raises ID3Error or error. -/
inductive TagsOutcome
  | dictTags (tit2 tpe1 talb tcon : Option String)
  | noTags
  | id3error
deriving DecidableEq

/-- Result of mutagen.File(file_path) and the subsequent info reads: fail
when the call raises or returns a falsy value (the ValueError path of lines
30-31, caught at line 64 before any assignment to self.metadata); ok
otherwise. -/
inductive MutagenResult
  | fail
  | ok (info : AudioInfo) (tags : TagsOutcome)
deriving DecidableEq

/-- A dict appended to self.audio_files on lines 167-177. -/
structure TrackRec where
  path : String
  album : String
  genre : String
  artist : String
  title : String
  bitrate : ℤ
  length : ℚ
  sample_rate : ℤ
  channels : Channels
deriving DecidableEq

/-- One file yielded by os.walk: base name (checked for its extension),
joined path, and what mutagen would report for it. -/
structure DirFile where
  name : String
  path : String
  result : MutagenResult
deriving DecidableEq

/-- Errors of the embedded fragments that the code does not catch. -/
inductive PyErr
  | keyError
  | indexError
deriving DecidableEq

/-- get_audio_metadata (lines 25-65). Mutates and returns the self.metadata
dict; never raises: every exception of the read is caught at line 64 and the
dict is returned as it was (fail case). -/
def get_audio_metadata (md : MetaDict) (file_path : String) (r : MutagenResult) : MetaDict :=
  match r with
  | .fail => md
  | .ok info tags =>
    let md1 : MetaDict :=
      { md with
        length := some (pyRound2 info.length),
        bitrate := some (pyTrunc ((info.bitrate : ℚ) / 1000)),
        sample_rate := some info.sample_rate,
        channels := some (match info.channels with
          | some n => Channels.num n
          | none => Channels.unknown) }
    match tags with
    | .dictTags tit2 tpe1 talb tcon =>
      { md1 with
        title := some (tit2.getD ""),
        artist := some (tpe1.getD ""),
        album := some (talb.getD ""),
        genre := some (tcon.getD "") }
    | .noTags =>
      { md1 with
        title := some "Unknown", artist := some "Unknown",
        album := some "Unknown", genre := some "Unknown" }
    | .id3error =>
      { md1 with
        title := some (pyBasename file_path), artist := some "Unknown",
        album := some "Unknown", genre := some "Unknown" }

/-- display_metadata (lines 68-82), with the prints abstracted away and only
the dictionary accesses kept: self.metadata.get('title') is a safe lookup
whose truthiness guards a direct index of 'artist'; then 'album', 'genre',
'length', 'bitrate', 'sample_rate' and 'channels' are indexed directly in
that order, each raising KeyError when the key is absent. -/
def display_metadata (md : MetaDict) : Except PyErr Unit :=
  if (md.title.getD "" ≠ "") ∧ md.artist = none then .error .keyError
  else if md.album = none then .error .keyError
  else if md.genre = none then .error .keyError
  else if md.length = none then .error .keyError
  else if md.bitrate = none then .error .keyError
  else if md.sample_rate = none then .error .keyError
  else if md.channels = none then .error .keyError
  else .ok ()

/-- Operations performed on the pygame mixer by play_audio. -/
inductive SinkOp
  | loadSuccess
  | loadFailure
  | playStart
  | unload
deriving DecidableEq

/-- Observable outcome of one play_audio call: the mixer operations in
order, the uncaught exception leaving the call (if any), and the value of
self.metadata on exit. -/
structure PlayResult where
  sinkOps : List SinkOp
  raised : Option PyErr
  selfMeta : MetaDict
deriving DecidableEq

/-- play_audio (lines 84-120). loadOk tells whether pygame.mixer.music.load
succeeds; on failure the except block prints and returns with no unload
(lines 94-96). On success, self.metadata is replaced when the metadata
argument is not None (lines 98-99), display_metadata runs (a KeyError there
propagates out before play is called), then the file is played to completion
and the mixer is unloaded (lines 111-120). The progress-bar thread touches
no mixer state and is modelled separately by update_progress_bar. -/
def play_audio (md : MetaDict) (metadata : Option MetaDict) (loadOk : Bool) : PlayResult :=
  if loadOk = false then
    { sinkOps := [SinkOp.loadFailure], raised := none, selfMeta := md }
  else
    let md2 := metadata.getD md
    match display_metadata md2 with
    | .error e =>
      { sinkOps := [SinkOp.loadSuccess], raised := some e, selfMeta := md2 }
    | .ok _ =>
      { sinkOps := [SinkOp.loadSuccess, SinkOp.playStart, SinkOp.unload],
        raised := none, selfMeta := md2 }

/-- One iteration of the polling loop of update_progress_bar: the elapsed
time (current pygame tick minus start tick, in seconds) and the value of
pygame.mixer.music.get_busy() observed in that iteration. -/
structure PBSample where
  elapsed : ℚ
  busy : Bool
deriving DecidableEq

/-- The while-loop of update_progress_bar (lines 132-146) run over a list of
clock/busy samples: stop at the first sample with elapsed at or past
total_length times (1 + 1E-6); otherwise, while busy, set the bar position
to min(round(elapsed, 3), total_length) via pb.update(pb_pos - pb.n). The
returned list is the sequence of displayed bar positions. -/
def runProgressLoop (T : ℚ) : List PBSample → List ℚ
  | [] => []
  | s :: rest =>
    if T * (1 + 1/1000000) ≤ s.elapsed then []
    else if s.busy then
      min (pyRound3 s.elapsed) T :: runProgressLoop T rest
    else runProgressLoop T rest

/-- Output events of update_progress_bar: the single unavailable notice, or
a displayed bar position. -/
inductive PBOut
  | unavailable
  | pos (q : ℚ)
deriving DecidableEq

/-- update_progress_bar (lines 122-149): with total_length == 0 it prints
the unavailable notice once and returns (lines 124-126); otherwise it runs
the polling loop. -/
def update_progress_bar (T : ℚ) (samples : List PBSample) : List PBOut :=
  if T = 0 then [PBOut.unavailable]
  else (runProgressLoop T samples).map PBOut.pos

/-- The positions among a list of progress-bar output events. -/
def displayedPositions (outs : List PBOut) : List ℚ :=
  outs.filterMap (fun o => match o with
    | PBOut.pos q => some q
    | PBOut.unavailable => none)

/-- The supported_formats list of line 155. -/
def supported_formats : List String := ["mp3", "wav", "ogg"]

/-- The dict literal appended to self.audio_files on lines 167-177: every
field is read back from self.metadata with a .get default. -/
def mkTrack (file_path : String) (md : MetaDict) : TrackRec :=
  { path := file_path,
    album := md.album.getD "",
    genre := md.genre.getD "",
    artist := md.artist.getD "",
    title := md.title.getD "",
    bitrate := md.bitrate.getD 0,
    length := md.length.getD 0,
    sample_rate := md.sample_rate.getD 0,
    channels := md.channels.getD (Channels.num 0) }

/-- get_audio_files (lines 151-182) over the flattened sequence of files
yielded by os.walk, threading self.metadata (md) and self.audio_files (acc)
and returning their final values; the function returns self.audio_files
itself (line 182). The try/except of lines 165-180 never fires because
get_audio_metadata catches every exception internally, so each file with a
supported extension is appended unconditionally. -/
def get_audio_files : MetaDict → List TrackRec → List DirFile → MetaDict × List TrackRec
  | md, acc, [] => (md, acc)
  | md, acc, f :: rest =>
    if extOf f.name ∈ supported_formats then
      let md2 := get_audio_metadata md f.path f.result
      get_audio_files md2 (acc ++ [mkTrack f.path md2]) rest
    else
      get_audio_files md acc rest

/-- One potential iteration of the wait loop in display_next_track_and_wait:
the value of time.time() - start_time at the while condition (line 219), its
value at the elapsed_time computation (line 220), and the line returned by
sys.stdin.readline() when select reports input ready within its one-second
window (lines 229-230), none when it does not. -/
structure WaitIter where
  tCheck : ℚ
  tLoop : ℚ
  line : Option String

/-- The while-loop of lines 219-233 run over per-iteration observations,
threading the user_input_received flag. Returns the final flag and the
number of completed iterations, or none when the observation list is
exhausted while the loop would continue. A received line sets the flag only
when line.strip() == '' and len(line) > 0 (line 231). -/
def waitLoop (timeout : ℤ) (received : Bool) : List WaitIter → Option (Bool × ℕ)
  | [] => none
  | it :: rest =>
    if ¬ (it.tCheck < (timeout : ℚ)) ∨ received = true then some (received, 0)
    else if ¬ (0 < pyTrunc ((timeout : ℚ) - it.tLoop)) then some (received, 0)
    else
      let received2 := match it.line with
        | some l => if pyStrip l = "" ∧ 0 < l.length then true else received
        | none => received
      (waitLoop timeout received2 rest).map (fun p => (p.1, p.2 + 1))

/-- How a call of display_next_track_and_wait returned: via the empty-list
early return of lines 202-204, via the non-tty early return of lines
214-216, or past the loop with the user_input_received flag true
(user advance) or false (timeout advance). -/
inductive WaitOutcome
  | noTracks
  | nonInteractive
  | userAdvance
  | timeoutAdvance
deriving DecidableEq

/-- display_next_track_and_wait (lines 199-236). The timeout argument is
self.timeout; isatty is sys.stdin.isatty(); iters are the loop observations.
Indexing audio_list[next_index - 1] on line 207 raises IndexError when the
index is out of Python range. Returns .ok none when the observation list is
too short to settle the loop. -/
def display_next_track_and_wait (timeout : ℤ) (audio_list : List TrackRec)
    (next_index : ℤ) (isatty : Bool) (iters : List WaitIter) :
    Except PyErr (Option WaitOutcome) :=
  if audio_list = [] then Except.ok (some WaitOutcome.noTracks)
  else if pyIdxValid audio_list.length (next_index - 1) then
    if isatty then
      match waitLoop timeout false iters with
      | none => Except.ok none
      | some (true, _) => Except.ok (some WaitOutcome.userAdvance)
      | some (false, _) => Except.ok (some WaitOutcome.timeoutAdvance)
    else Except.ok (some WaitOutcome.nonInteractive)
  else Except.error PyErr.indexError

/-- The rounded integer is at least the floor. -/
theorem pyRoundInt_ge_floor (q : ℚ) : ⌊q⌋ ≤ pyRoundInt q := by
  unfold pyRoundInt
  split_ifs <;> omega

/-- The rounded integer is at most the floor plus one. -/
theorem pyRoundInt_le_floor_add_one (q : ℚ) : pyRoundInt q ≤ ⌊q⌋ + 1 := by
  unfold pyRoundInt
  split_ifs <;> omega

/-- Rounding a nonnegative rational gives a nonnegative integer. -/
theorem pyRoundInt_nonneg {q : ℚ} (h : 0 ≤ q) : 0 ≤ pyRoundInt q := by
  have h0 : (0:ℤ) ≤ ⌊q⌋ := Int.floor_nonneg.mpr h
  have h1 := pyRoundInt_ge_floor q
  omega

/-- Half-even rounding is monotone. -/
theorem pyRoundInt_mono {a b : ℚ} (h : a ≤ b) : pyRoundInt a ≤ pyRoundInt b := by
  rcases eq_or_lt_of_le (Int.floor_le_floor h) with hf | hf
  · unfold pyRoundInt
    rw [← hf]
    split_ifs <;> first | omega | linarith
  · have h1 := pyRoundInt_le_floor_add_one a
    have h2 := pyRoundInt_ge_floor b
    omega

/-- round(x, 3) of a nonnegative value is nonnegative. -/
theorem pyRound3_nonneg {q : ℚ} (h : 0 ≤ q) : 0 ≤ pyRound3 q := by
  unfold pyRound3
  have h1 : (0:ℤ) ≤ pyRoundInt (q * 1000) := pyRoundInt_nonneg (by positivity)
  have h2 : (0:ℚ) ≤ (pyRoundInt (q * 1000) : ℚ) := by exact_mod_cast h1
  positivity

/-- round(x, 3) is monotone. -/
theorem pyRound3_mono {a b : ℚ} (h : a ≤ b) : pyRound3 a ≤ pyRound3 b := by
  unfold pyRound3
  have h1 : pyRoundInt (a * 1000) ≤ pyRoundInt (b * 1000) :=
    pyRoundInt_mono (by linarith)
  have h2 : (pyRoundInt (a * 1000) : ℚ) ≤ (pyRoundInt (b * 1000) : ℚ) := by
    exact_mod_cast h1
  linarith

/-- Every position emitted by the progress loop comes from a busy sample and
equals min(round(elapsed, 3), total). -/
theorem mem_runProgressLoop {T x : ℚ} {ss : List PBSample}
    (h : x ∈ runProgressLoop T ss) :
    ∃ s ∈ ss, s.busy = true ∧ x = min (pyRound3 s.elapsed) T := by
  induction ss with
  | nil => simp [runProgressLoop] at h
  | cons s rest ih =>
    simp only [runProgressLoop] at h
    split at h
    · simp at h
    · split at h
      · rcases List.mem_cons.mp h with h1 | h1
        · exact ⟨s, List.mem_cons_self s rest, by assumption, h1⟩
        · obtain ⟨t, ht, hb, hx⟩ := ih h1
          exact ⟨t, List.mem_cons_of_mem s ht, hb, hx⟩
      · obtain ⟨t, ht, hb, hx⟩ := ih h
        exact ⟨t, List.mem_cons_of_mem s ht, hb, hx⟩

/-- With clock samples that never decrease, the emitted positions never
decrease. -/
theorem pairwise_runProgressLoop {T : ℚ} {ss : List PBSample}
    (hm : ss.Pairwise (fun a b => a.elapsed ≤ b.elapsed)) :
    (runProgressLoop T ss).Pairwise (· ≤ ·) := by
  induction ss with
  | nil => simp [runProgressLoop]
  | cons s rest ih =>
    rcases List.pairwise_cons.mp hm with ⟨hs, hrest⟩
    simp only [runProgressLoop]
    split
    · exact List.Pairwise.nil
    · split
      · refine List.pairwise_cons.mpr ⟨?_, ih hrest⟩
        intro x hx
        obtain ⟨t, ht, _, hxeq⟩ := mem_runProgressLoop hx
        subst hxeq
        exact min_le_min (pyRound3_mono (hs t ht)) le_rfl
      · exact ih hrest

/-- The default-or-last element of a nonempty list is an element of it. -/
theorem getLastD_mem_of_ne_nil : ∀ (l : List α) (d : α), l ≠ [] → l.getLastD d ∈ l
  | [], _, h => absurd rfl h
  | [a], d, _ => by simp
  | a :: b :: t, d, _ => by
    have h1 := getLastD_mem_of_ne_nil (b :: t) a (by simp)
    have h2 : (a :: b :: t).getLastD d = (b :: t).getLastD a := rfl
    rw [h2]
    exact List.mem_cons_of_mem a h1

/-- Paths of the catalog returned by get_audio_files: the accumulated paths
followed by the paths of exactly the files whose lowercased extension is
supported, in walk order, independent of each metadata-extraction result. -/
theorem get_audio_files_paths (files : List DirFile) :
    ∀ (md : MetaDict) (acc : List TrackRec),
      ((get_audio_files md acc files).2).map (fun t => t.path)
        = acc.map (fun t => t.path)
          ++ (files.filter (fun f => extOf f.name ∈ supported_formats)).map
              (fun f => f.path) := by
  induction files with
  | nil => intro md acc; simp [get_audio_files]
  | cons f rest ih =>
    intro md acc
    simp only [get_audio_files]
    split
    · rw [ih]
      simp [List.filter_cons, mkTrack, *]
    · rw [ih]
      simp [List.filter_cons, *]

/-- get_audio_files only appends: the result extends the incoming
self.audio_files list by records whose paths are those of the supported
files. -/
theorem get_audio_files_append (files : List DirFile) :
    ∀ (md : MetaDict) (acc : List TrackRec),
      ∃ ts, (get_audio_files md acc files).2 = acc ++ ts
        ∧ ts.map (fun t => t.path)
          = (files.filter (fun f => extOf f.name ∈ supported_formats)).map
              (fun f => f.path) := by
  induction files with
  | nil => intro md acc; exact ⟨[], by simp [get_audio_files], by simp⟩
  | cons f rest ih =>
    intro md acc
    simp only [get_audio_files]
    split
    · obtain ⟨ts, h1, h2⟩ := ih (get_audio_metadata md f.path f.result)
        (acc ++ [mkTrack f.path (get_audio_metadata md f.path f.result)])
      refine ⟨mkTrack f.path (get_audio_metadata md f.path f.result) :: ts, ?_, ?_⟩
      · rw [h1]; simp
      · simp [List.filter_cons, mkTrack, h2, *]
    · obtain ⟨ts, h1, h2⟩ := ih md acc
      refine ⟨ts, h1, ?_⟩
      simp [List.filter_cons, h2, *]

/-- display_metadata raises KeyError whenever one of the directly indexed
keys is absent from the shared metadata dict. -/
theorem display_metadata_error_of_missing {md : MetaDict}
    (h : md.album = none ∨ md.genre = none ∨ md.length = none ∨
         md.bitrate = none ∨ md.sample_rate = none ∨ md.channels = none) :
    display_metadata md = Except.error PyErr.keyError := by
  unfold display_metadata
  split_ifs <;> simp_all

/-- A mapped-in position list comes back out of displayedPositions. -/
theorem displayedPositions_map_pos (l : List ℚ) :
    displayedPositions (l.map PBOut.pos) = l := by
  induction l with
  | nil => rfl
  | cons a t ih => simp [displayedPositions] at ih ⊢; exact ih

/-- A sample audio-info record used for concrete runs. -/
def sampleInfo : AudioInfo :=
  { length := 180, bitrate := 128000, sample_rate := 44100, channels := some 2 }

/-- A sample successful mutagen read used for concrete runs. -/
def sampleOk : MutagenResult :=
  MutagenResult.ok sampleInfo (TagsOutcome.dictTags (some "T") (some "A") (some "B") (some "G"))

/-- A sample track record used for concrete runs. -/
def sampleTrack : TrackRec := mkTrack "t.mp3" emptyMeta

/-- A metadata dict with every key present, as after a fully successful
extraction. -/
def fullMeta : MetaDict :=
  { length := some 3, bitrate := some 128, sample_rate := some 44100,
    channels := some (Channels.num 2), title := some "T", artist := some "A",
    album := some "B", genre := some "G" }

/-- Claim C6: for every track whose total duration is 0, the progress
reporter emits exactly one unavailable notice and terminates immediately,
entering no polling loop and emitting no position update. -/
theorem claim_C6 (samples : List PBSample) :
    update_progress_bar 0 samples = [PBOut.unavailable] ∧
    (update_progress_bar 0 samples).count PBOut.unavailable = 1 ∧
    displayedPositions (update_progress_bar 0 samples) = [] := by
  refine ⟨by simp [update_progress_bar], ?_, ?_⟩ <;>
    simp [update_progress_bar, displayedPositions]

/-- Claim C7: catalog discovery selects exactly the files whose lowercased
extension is in the set mp3, wav, ogg, case-insensitively; over a directory
with extensions mp3, ogg, txt and WAV it yields exactly the mp3, ogg and WAV
files and excludes txt. -/
theorem claim_C7 :
    (∀ files : List DirFile,
      ((get_audio_files emptyMeta [] files).2).map (fun t => t.path)
        = (files.filter (fun f => extOf f.name ∈ supported_formats)).map
            (fun f => f.path)) ∧
    ((get_audio_files emptyMeta []
        [⟨"a.mp3", "a.mp3", MutagenResult.fail⟩,
         ⟨"b.ogg", "b.ogg", MutagenResult.fail⟩,
         ⟨"c.txt", "c.txt", MutagenResult.fail⟩,
         ⟨"d.WAV", "d.WAV", MutagenResult.fail⟩]).2).map (fun t => t.path)
      = ["a.mp3", "b.ogg", "d.WAV"] ∧
    extOf "d.WAV" = "wav" ∧ extOf "c.txt" ∉ supported_formats := by
  refine ⟨?_, by decide, by decide, by decide⟩
  intro files
  rw [get_audio_files_paths]
  simp

/-- Claim C9 (confirmed): get_audio_files appends into the instance list
self.audio_files and returns that list, so a second call on the same
directory returns the first list extended by records duplicating the
directory paths. -/
theorem claim_C9 (files : List DirFile) :
    ∃ ts,
      (get_audio_files (get_audio_files emptyMeta [] files).1
          (get_audio_files emptyMeta [] files).2 files).2
        = (get_audio_files emptyMeta [] files).2 ++ ts ∧
      ts.map (fun t => t.path)
        = ((get_audio_files emptyMeta [] files).2).map (fun t => t.path) := by
  obtain ⟨ts, h1, h2⟩ := get_audio_files_append files
    (get_audio_files emptyMeta [] files).1 (get_audio_files emptyMeta [] files).2
  refine ⟨ts, h1, ?_⟩
  rw [h2, get_audio_files_paths]
  simp

/-- Claim C2, counterexample: a file whose metadata extraction fails is NOT
excluded from the catalog; with one failing and one succeeding mp3 file the
catalog holds both paths, the failing one included. -/
theorem claim_C2_counterexample :
    ((get_audio_files emptyMeta []
        [⟨"bad.mp3", "bad.mp3", MutagenResult.fail⟩,
         ⟨"good.mp3", "good.mp3", sampleOk⟩]).2).map (fun t => t.path)
      = ["bad.mp3", "good.mp3"] ∧
    ¬ ("bad.mp3" ∉ ((get_audio_files emptyMeta []
        [⟨"bad.mp3", "bad.mp3", MutagenResult.fail⟩,
         ⟨"good.mp3", "good.mp3", sampleOk⟩]).2).map (fun t => t.path)) := by
  have h : ((get_audio_files emptyMeta []
      [⟨"bad.mp3", "bad.mp3", MutagenResult.fail⟩,
       ⟨"good.mp3", "good.mp3", sampleOk⟩]).2).map (fun t => t.path)
      = ["bad.mp3", "good.mp3"] := by
    rw [get_audio_files_paths]
    decide
  refine ⟨h, ?_⟩
  rw [h]
  simp

/-- Claim C2, amended: a file with a supported extension whose metadata
extraction errors is still appended to the catalog (with default or stale
field values); the walk does not abort and the catalog size equals the
number of supported-extension files. -/
theorem claim_C2_amended (files : List DirFile) (f : DirFile)
    (hf : f ∈ files) (_hfail : f.result = MutagenResult.fail)
    (hext : extOf f.name ∈ supported_formats) :
    f.path ∈ ((get_audio_files emptyMeta [] files).2).map (fun t => t.path) ∧
    ((get_audio_files emptyMeta [] files).2).length
      = (files.filter (fun g => extOf g.name ∈ supported_formats)).length := by
  constructor
  · rw [get_audio_files_paths]
    simp only [List.map_nil, List.nil_append, List.mem_map]
    exact ⟨f, List.mem_filter.mpr ⟨hf, by simpa using hext⟩, rfl⟩
  · have h := congrArg List.length (get_audio_files_paths files emptyMeta [])
    simpa using h

/-- Claim C2, amended, witness at a one-file directory. -/
theorem claim_C2_witness :
    "bad.mp3" ∈ ((get_audio_files emptyMeta []
        [⟨"bad.mp3", "bad.mp3", MutagenResult.fail⟩]).2).map (fun t => t.path) ∧
    ((get_audio_files emptyMeta []
        [⟨"bad.mp3", "bad.mp3", MutagenResult.fail⟩]).2).length
      = ([(⟨"bad.mp3", "bad.mp3", MutagenResult.fail⟩ : DirFile)].filter
          (fun g => extOf g.name ∈ supported_formats)).length :=
  claim_C2_amended [⟨"bad.mp3", "bad.mp3", MutagenResult.fail⟩]
    ⟨"bad.mp3", "bad.mp3", MutagenResult.fail⟩ (by simp) rfl (by decide)

/-- Claim C3, counterexample: on a total read error the adapter does not
yield a record with zero numerics and Unknown texts; on a fresh player it
returns the dict unchanged, with every key still absent. -/
theorem claim_C3_counterexample :
    get_audio_metadata emptyMeta "song.mp3" MutagenResult.fail = emptyMeta ∧
    (get_audio_metadata emptyMeta "song.mp3" MutagenResult.fail).length ≠ some 0 ∧
    (get_audio_metadata emptyMeta "song.mp3" MutagenResult.fail).bitrate ≠ some 0 ∧
    (get_audio_metadata emptyMeta "song.mp3" MutagenResult.fail).sample_rate ≠ some 0 ∧
    (get_audio_metadata emptyMeta "song.mp3" MutagenResult.fail).title ≠ some "Unknown" := by
  refine ⟨rfl, ?_, ?_, ?_, ?_⟩ <;> simp [get_audio_metadata, emptyMeta]

/-- Claim C3, amended: the adapter never fails its caller (it is a total
function), but on a read error it leaves the shared metadata dict unchanged
rather than writing defaults; the Unknown defaults are written only in the
two ID3-tag subcases, where the numeric fields hold freshly read values and
the title falls back to the base name only in the ID3-error subcase. -/
theorem claim_C3_amended :
    (∀ (md : MetaDict) (p : String),
      get_audio_metadata md p MutagenResult.fail = md) ∧
    (∀ (md : MetaDict) (p : String) (info : AudioInfo),
      (get_audio_metadata md p (MutagenResult.ok info TagsOutcome.noTags)).title
          = some "Unknown" ∧
      (get_audio_metadata md p (MutagenResult.ok info TagsOutcome.noTags)).artist
          = some "Unknown" ∧
      (get_audio_metadata md p (MutagenResult.ok info TagsOutcome.noTags)).album
          = some "Unknown" ∧
      (get_audio_metadata md p (MutagenResult.ok info TagsOutcome.noTags)).genre
          = some "Unknown" ∧
      (get_audio_metadata md p (MutagenResult.ok info TagsOutcome.noTags)).length
          = some (pyRound2 info.length)) ∧
    (∀ (md : MetaDict) (p : String) (info : AudioInfo),
      (get_audio_metadata md p (MutagenResult.ok info TagsOutcome.id3error)).title
          = some (pyBasename p) ∧
      (get_audio_metadata md p (MutagenResult.ok info TagsOutcome.id3error)).artist
          = some "Unknown" ∧
      (get_audio_metadata md p (MutagenResult.ok info TagsOutcome.id3error)).album
          = some "Unknown" ∧
      (get_audio_metadata md p (MutagenResult.ok info TagsOutcome.id3error)).genre
          = some "Unknown") := by
  refine ⟨fun md p => rfl, fun md p info => ?_, fun md p info => ?_⟩ <;>
    simp [get_audio_metadata]

/-- Claim C5, counterexample: with total duration 5 and a valid monotone
nonnegative sample trace in which the sink stops being busy before the end,
the reporter terminates (last sample is past the epsilon threshold) but the
last displayed position is 1, strictly below the duration, refuting the
claimed lower bound T ≤ position on the last reported position. -/
theorem claim_C5_counterexample :
    (0:ℚ) < 5 ∧
    (∀ s ∈ [(⟨1, true⟩ : PBSample), ⟨6, false⟩], 0 ≤ s.elapsed) ∧
    ([(⟨1, true⟩ : PBSample), ⟨6, false⟩]).Pairwise
      (fun a b => a.elapsed ≤ b.elapsed) ∧
    (5:ℚ) * (1 + 1/1000000) ≤ 6 ∧
    displayedPositions (update_progress_bar 5 [(⟨1, true⟩ : PBSample), ⟨6, false⟩])
      = [1] ∧
    ¬ ((5:ℚ) ≤ (displayedPositions
        (update_progress_bar 5 [(⟨1, true⟩ : PBSample), ⟨6, false⟩])).getLastD 0) := by
  have h : displayedPositions
      (update_progress_bar 5 [(⟨1, true⟩ : PBSample), ⟨6, false⟩]) = [1] := by
    norm_num [update_progress_bar, runProgressLoop, displayedPositions,
      List.filterMap_cons, pyRound3, pyRoundInt]
  refine ⟨by norm_num, ?_, ?_, by norm_num, h, ?_⟩
  · intro s hs
    simp only [List.mem_cons, List.mem_singleton] at hs
    rcases hs with rfl | rfl | hs
    · norm_num
    · norm_num
    · simp at hs
  · norm_num [List.pairwise_cons]
  · rw [h]
    norm_num

/-- Claim C5, amended: for total duration T greater than 0 and any monotone
nonnegative sample trace, every displayed position lies in the interval from
0 to T (hence within the claimed slop bound), the displayed positions are
non-decreasing, and the last displayed position is at most T; the lower
bound T on the last position does not hold in general. -/
theorem claim_C5_amended (T : ℚ) (samples : List PBSample) (hT : 0 < T)
    (h0 : ∀ s ∈ samples, 0 ≤ s.elapsed)
    (hmono : samples.Pairwise (fun a b => a.elapsed ≤ b.elapsed)) :
    (∀ p ∈ displayedPositions (update_progress_bar T samples), 0 ≤ p ∧ p ≤ T) ∧
    (displayedPositions (update_progress_bar T samples)).Pairwise (· ≤ ·) ∧
    (displayedPositions (update_progress_bar T samples)).getLastD 0 ≤ T := by
  have hne : T ≠ 0 := ne_of_gt hT
  have hrw : displayedPositions (update_progress_bar T samples)
      = runProgressLoop T samples := by
    rw [update_progress_bar, if_neg hne, displayedPositions_map_pos]
  rw [hrw]
  have hb : ∀ p ∈ runProgressLoop T samples, 0 ≤ p ∧ p ≤ T := by
    intro p hp
    obtain ⟨s, hs, _, hx⟩ := mem_runProgressLoop hp
    subst hx
    exact ⟨le_min (pyRound3_nonneg (h0 s hs)) hT.le, min_le_right _ _⟩
  refine ⟨hb, pairwise_runProgressLoop hmono, ?_⟩
  cases hl : runProgressLoop T samples with
  | nil => simpa using hT.le
  | cons a t =>
    have hmem : (a :: t).getLastD 0 ∈ a :: t :=
      getLastD_mem_of_ne_nil (a :: t) 0 (by simp)
    have := hb ((a :: t).getLastD 0) (by rw [hl]; exact hmem)
    exact this.2

/-- Claim C5, amended, witness at duration 5 with a busy trace. -/
theorem claim_C5_witness :
    (∀ p ∈ displayedPositions
        (update_progress_bar 5 [(⟨1, true⟩ : PBSample), ⟨2, true⟩, ⟨6, false⟩]),
      0 ≤ p ∧ p ≤ 5) ∧
    (displayedPositions
        (update_progress_bar 5 [(⟨1, true⟩ : PBSample), ⟨2, true⟩, ⟨6, false⟩])).Pairwise
      (· ≤ ·) ∧
    (displayedPositions
        (update_progress_bar 5 [(⟨1, true⟩ : PBSample), ⟨2, true⟩, ⟨6, false⟩])).getLastD 0
      ≤ 5 :=
  claim_C5_amended 5 [⟨1, true⟩, ⟨2, true⟩, ⟨6, false⟩] (by norm_num)
    (by
      intro s hs
      simp only [List.mem_cons, List.mem_singleton] at hs
      rcases hs with rfl | rfl | rfl | hs
      · norm_num
      · norm_num
      · norm_num
      · simp at hs)
    (by norm_num [List.pairwise_cons])

/-- Claim C10: when the shared metadata dict lacks one of the keys album,
genre, length, bitrate, sample_rate or channels and the file loads
successfully, display_metadata raises KeyError inside play_audio, the
exception propagates, and the track is never played. -/
theorem claim_C10 (md : MetaDict)
    (h : md.album = none ∨ md.genre = none ∨ md.length = none ∨
         md.bitrate = none ∨ md.sample_rate = none ∨ md.channels = none) :
    display_metadata md = Except.error PyErr.keyError ∧
    (play_audio md none true).raised = some PyErr.keyError ∧
    SinkOp.playStart ∉ (play_audio md none true).sinkOps := by
  have hd := display_metadata_error_of_missing h
  refine ⟨hd, ?_, ?_⟩ <;> simp [play_audio, hd]

/-- Claim C10, witness at the empty metadata dict of a fresh player. -/
theorem claim_C10_witness :
    display_metadata emptyMeta = Except.error PyErr.keyError ∧
    (play_audio emptyMeta none true).raised = some PyErr.keyError ∧
    SinkOp.playStart ∉ (play_audio emptyMeta none true).sinkOps :=
  claim_C10 emptyMeta (Or.inl rfl)

/-- Claim C4, counterexample: on the load-failure exit path play_audio
returns normally without ever unloading the sink, refuting the claim that
every exit path releases the sink. -/
theorem claim_C4_counterexample :
    (play_audio emptyMeta none false).sinkOps = [SinkOp.loadFailure] ∧
    SinkOp.unload ∉ (play_audio emptyMeta none false).sinkOps ∧
    (play_audio emptyMeta none false).raised = none := by
  refine ⟨rfl, ?_, rfl⟩
  simp [play_audio]

/-- Claim C4, amended: the sink is unloaded (and unloaded last) only on the
natural-completion path; when loading fails, play_audio returns with no
unload call. -/
theorem claim_C4_amended (md : MetaDict) (metadata : Option MetaDict)
    (h : display_metadata (metadata.getD md) = Except.ok ()) :
    (play_audio md metadata true).sinkOps
      = [SinkOp.loadSuccess, SinkOp.playStart, SinkOp.unload] ∧
    (play_audio md metadata true).sinkOps.getLast? = some SinkOp.unload ∧
    SinkOp.unload ∉ (play_audio md metadata false).sinkOps := by
  refine ⟨?_, ?_, ?_⟩ <;> simp [play_audio, h]

/-- Claim C4, amended, witness at a fully populated metadata dict. -/
theorem claim_C4_witness :
    (play_audio fullMeta none true).sinkOps
      = [SinkOp.loadSuccess, SinkOp.playStart, SinkOp.unload] ∧
    (play_audio fullMeta none true).sinkOps.getLast? = some SinkOp.unload ∧
    SinkOp.unload ∉ (play_audio fullMeta none false).sinkOps :=
  claim_C4_amended fullMeta none rfl

/-- Claim C8: when standard input is not a tty, the wait skips the race and
returns immediately with the non-interactive outcome, for every configured
timeout, track list and observation trace. -/
theorem claim_C8 (timeout : ℤ) (tracks : List TrackRec) (next_index : ℤ)
    (iters : List WaitIter)
    (h1 : tracks ≠ [])
    (h2 : pyIdxValid tracks.length (next_index - 1) = true) :
    display_next_track_and_wait timeout tracks next_index false iters
      = Except.ok (some WaitOutcome.nonInteractive) := by
  simp [display_next_track_and_wait, h1, h2]

/-- Claim C8, witness at a one-track list and timeout 10. -/
theorem claim_C8_witness :
    display_next_track_and_wait 10 [sampleTrack] 1 false []
      = Except.ok (some WaitOutcome.nonInteractive) :=
  claim_C8 10 [sampleTrack] 1 [] (by simp) (by decide)

/-- Claim C1, counterexample: a non-blank line read well before the timeout
does not set user_input_received, so the wait runs to its timeout and ends
with the timeout outcome, refuting the claim that any received line ends the
wait with the user-advance outcome. -/
theorem claim_C1_counterexample :
    display_next_track_and_wait 2 [sampleTrack] 1 true
        [⟨0, 0, some "abc\n"⟩, ⟨1, 1, none⟩, ⟨3, 3, none⟩]
      = Except.ok (some WaitOutcome.timeoutAdvance) ∧
    display_next_track_and_wait 2 [sampleTrack] 1 true
        [⟨0, 0, some "abc\n"⟩, ⟨1, 1, none⟩, ⟨3, 3, none⟩]
      ≠ Except.ok (some WaitOutcome.userAdvance) := by
  have h : display_next_track_and_wait 2 [sampleTrack] 1 true
      [⟨0, 0, some "abc\n"⟩, ⟨1, 1, none⟩, ⟨3, 3, none⟩]
      = Except.ok (some WaitOutcome.timeoutAdvance) := by
    have e1 : waitLoop 2 false [⟨0, 0, some "abc\n"⟩, ⟨1, 1, none⟩, ⟨3, 3, none⟩]
        = some (false, 2) := by
      have hs1 : ¬ (pyStrip "abc\n" = "" ∧ 0 < "abc\n".length) := by decide
      norm_num [waitLoop, pyTrunc, hs1]
    simp [display_next_track_and_wait, e1, pyIdxValid]
  exact ⟨h, by rw [h]; simp⟩

/-- Claim C1, amended: a received line ends the wait early with the
user-advance outcome only when it is non-empty and whitespace-only (a bare
Enter); such a line, arriving in an iteration that starts before the timeout
with a positive remaining countdown, makes the wait end with the
user-advance outcome at the next loop check. -/
theorem claim_C1_amended (timeout : ℤ) (tracks : List TrackRec) (next_index : ℤ)
    (it1 it2 : WaitIter) (rest : List WaitIter) (l : String)
    (h1 : tracks ≠ [])
    (h2 : pyIdxValid tracks.length (next_index - 1) = true)
    (hc : it1.tCheck < (timeout : ℚ))
    (hr : 0 < pyTrunc ((timeout : ℚ) - it1.tLoop))
    (hline : it1.line = some l)
    (hblank : pyStrip l = "")
    (hlen : 0 < l.length) :
    display_next_track_and_wait timeout tracks next_index true
        (it1 :: it2 :: rest)
      = Except.ok (some WaitOutcome.userAdvance) := by
  have e1 : waitLoop timeout false (it1 :: it2 :: rest) = some (true, 1) := by
    rw [waitLoop]
    rw [if_neg (by simp [hc]), if_neg (by simp [hr])]
    simp only [hline]
    rw [if_pos ⟨hblank, hlen⟩]
    rw [waitLoop]
    rw [if_pos (by simp)]
    rfl
  simp [display_next_track_and_wait, e1, h1, h2]

/-- Claim C1, amended, witness: a bare newline arriving at once with a
5-second timeout ends the wait with the user-advance outcome. -/
theorem claim_C1_witness :
    display_next_track_and_wait 5 [sampleTrack] 1 true
        [⟨0, 0, some "\n"⟩, ⟨1, 1, none⟩]
      = Except.ok (some WaitOutcome.userAdvance) :=
  claim_C1_amended 5 [sampleTrack] 1 ⟨0, 0, some "\n"⟩ ⟨1, 1, none⟩ [] "\n"
    (by simp) (by decide) (by norm_num) (by norm_num [pyTrunc]) rfl
    (by decide) (by decide)

end PlayMusic
